import Mathlib

/-!
Verification of the gait-cycle segmentation and aggregation core of the
gaitutils repository (`gaitutils/trial.py`, `gaitutils/stats.py`,
`gaitutils/numutils.py`), via a shallow embedding in Lean 4.

Modelling conventions:
* Machine floats are modelled as exact rationals (`ℚ`).  Where IEEE special
  values matter (division by a zero MAD in `modified_zscore`), the score type
  `FpVal` extends `ℚ` with `+inf`, `-inf` and `nan`, following IEEE-754
  semantics for `finite / 0`.
* Python 2 `round` (the repository uses Python 2 idioms, e.g.
  `from exceptions import GaitDataError`) rounds half away from zero; it is
  embedded as `pyRound`.  All counterexamples below are tie-free, so they do
  not depend on the half-rounding direction.
* Python exceptions are modelled with `Except`: a raised exception aborts the
  surrounding computation, which matches `list()` over a raising generator and
  a raising function call.
-/

namespace Gaitutils

/-- Python 2 `round` on a rational: round half away from zero
(`round(2.5) == 3.0`, `round(-2.5) == -3.0`). -/
def pyRound (x : ℚ) : ℤ :=
  if 0 ≤ x then ⌊x + 1/2⌋ else -⌊-x + 1/2⌋

/-- `numpy.linspace a b n`: `n` evenly spaced points from `a` to `b`
inclusive (`[a]` for `n = 1`, `[]` for `n = 0`). -/
def linspace (a b : ℚ) (n : ℕ) : List ℚ :=
  if n ≤ 1 then (List.range n).map (fun _ => a)
  else (List.range n).map (fun (i : ℕ) => a + (b - a) * (i : ℚ) / ((n : ℚ) - 1))

/-- Python slice `l[a:b]` for integer bounds; the cycles produced by the
segmenter only use `0 ≤ a ≤ b`, where Python slicing clamps `b` to the list
length, exactly as `drop`/`take` do. -/
def pySlice (l : List ℚ) (a b : ℤ) : List ℚ :=
  (l.drop a.toNat).take (b - a).toNat

/-- Embedding of `trial.Gaitcycle` (trial.py:25): the fields stored by
`Gaitcycle.__init__`.  `end` is a Lean keyword, hence the field name `end_`. -/
structure Gaitcycle where
  offset : ℤ
  len : ℤ
  start : ℤ
  end_ : ℤ
  toeoff : ℤ
  context : Char
  on_forceplate : Bool
  start_smp : ℤ
  end_smp : ℤ
  len_smp : ℤ
  toeoffn : ℤ
deriving DecidableEq

/-- Embedding of `Gaitcycle.__init__(start, end, offset, toeoff, context,
on_forceplate, smp_per_frame)` (trial.py:27-50): frame indices are converted
to 0-based by subtracting `offset`; the analog-sample bounds round
`start*smp_per_frame` and `end*smp_per_frame` separately
(`int(round(...))`); the normalized toe-off is
`round(100*((toeoff-start)/len))`. -/
def mkGaitcycle (start end_ offset toeoff : ℤ) (context : Char)
    (on_forceplate : Bool) (smp_per_frame : ℚ) : Gaitcycle :=
  let len := end_ - start
  let start0 := start - offset
  let end0 := end_ - offset
  let toeoff0 := toeoff - offset
  let start_smp := pyRound ((start0 : ℚ) * smp_per_frame)
  let end_smp := pyRound ((end0 : ℚ) * smp_per_frame)
  { offset := offset
    len := len
    start := start0
    end_ := end0
    toeoff := toeoff0
    context := context
    on_forceplate := on_forceplate
    start_smp := start_smp
    end_smp := end_smp
    len_smp := end_smp - start_smp
    toeoffn := pyRound (100 * (((toeoff0 - start0 : ℤ) : ℚ) / ((len : ℤ) : ℚ))) }

/-- `Gaitcycle.tn_analog` (trial.py:46): normalized x-axis for analog
variables, `np.linspace(0, 100, len_smp)`. -/
def Gaitcycle.tn_analog (c : Gaitcycle) : List ℚ :=
  linspace 0 100 c.len_smp.toNat

/-- Embedding of `Gaitcycle.crop_analog` (trial.py:68-71): crop the analog
variable to `[start_smp, end_smp)` with no interpolation, paired with the
normalized analog time axis. -/
def Gaitcycle.crop_analog (c : Gaitcycle) (var : List ℚ) : List ℚ × List ℚ :=
  (c.tn_analog, pySlice var c.start_smp c.end_smp)

/-- `GaitDataError` raised by `Trial._scan_cycles` (trial.py:223-228): a
candidate cycle window contains no toe-off, or more than one. -/
inductive GaitDataError where
  | noToeoff (start : ℤ)
  | multipleToeoffs (start : ℤ)
deriving DecidableEq

/-- Forceplate matching in `_scan_cycles` (trial.py:213-220): false when the
context's forceplate-strike list is empty, else true iff the minimum of
`|fp - start + offset|` over the list is at most `STRIKE_TOL = 4`. -/
def onFp (fp_strikes : List ℤ) (start offset : ℤ) : Bool :=
  match (fp_strikes.map (fun x => |x - start + offset|)).minimum? with
  | none => false
  | some m => decide (m ≤ 4)

/-- Toe-offs strictly inside a candidate cycle window (trial.py:222):
`[x for x in toeoffs if x > start and x < end]`. -/
def toeoffsIn (toeoffs : List ℤ) (s e : ℤ) : List ℤ :=
  toeoffs.filter (fun x => decide (s < x) && decide (x < e))

/-- Per-side loop of `Trial._scan_cycles` (trial.py:211-232): for each
consecutive strike pair `(s_k, s_{k+1})`, find the toe-offs strictly inside;
none raises `GaitDataError`, more than one raises `GaitDataError`, exactly one
yields a `Gaitcycle`.  A raised exception aborts `list(generator)`, so cycles
already yielded are discarded (`Except.error`). -/
def scanSide (strikes : List ℤ) (toeoffs : List ℤ) (context : Char)
    (fp_strikes : List ℤ) (offset : ℤ) (smp_per_frame : ℚ) :
    Except GaitDataError (List Gaitcycle) :=
  match strikes with
  | s0 :: s1 :: rest =>
    match toeoffsIn toeoffs s0 s1 with
    | [] => .error (.noToeoff s0)
    | [t] =>
      (scanSide (s1 :: rest) toeoffs context fp_strikes offset smp_per_frame).map
        (fun cys =>
          mkGaitcycle s0 s1 offset t context (onFp fp_strikes s0 offset)
            smp_per_frame :: cys)
    | _ => .error (.multipleToeoffs s0)
  | _ => .ok []

/-- `Trial._scan_cycles` (trial.py:198-232).  The source iterates the
generator over `[self.lstrikes, self.rstrikes]`; a side with fewer than 2
strikes executes `return`, which terminates the whole generator (not just
that side).  The second iteration decides context by the value comparison
`strikes == self.lstrikes`, reproduced here. -/
def scanCycles (lstrikes rstrikes ltoeoffs rtoeoffs fpL fpR : List ℤ)
    (offset : ℤ) (smp_per_frame : ℚ) : Except GaitDataError (List Gaitcycle) :=
  if lstrikes.length < 2 then .ok []
  else do
    let lcys ← scanSide lstrikes ltoeoffs 'L' fpL offset smp_per_frame
    if rstrikes.length < 2 then .ok lcys
    else
      let rdata := if rstrikes = lstrikes then (ltoeoffs, 'L', fpL)
        else (rtoeoffs, 'R', fpR)
      let rcys ← scanSide rstrikes rdata.1 rdata.2.1 rdata.2.2 offset smp_per_frame
      .ok (lcys ++ rcys)

/-- Score values produced by `numutils.modified_zscore` (numutils.py:50-73):
a machine float, here an exact rational extended with the IEEE-754 special
values that arise when the divisor (the MAD) is exactly zero. -/
inductive FpVal where
  | fin (q : ℚ)
  | pinf
  | ninf
  | nan
deriving DecidableEq

/-- IEEE-754 division for finite rational operands, as numpy performs it:
`a/0` is `±inf` for nonzero `a` and `nan` for `0/0`. -/
def fdiv (a b : ℚ) : FpVal :=
  if b ≠ 0 then .fin (a / b)
  else if 0 < a then .pinf
  else if a < 0 then .ninf
  else .nan

/-- IEEE absolute value on scores. -/
def FpVal.absF : FpVal → FpVal
  | .fin q => .fin |q|
  | .pinf => .pinf
  | .ninf => .pinf
  | .nan => .nan

/-- IEEE comparison `s > t` against a finite threshold: any comparison with
`nan` is false, `+inf > t` is true. -/
def FpVal.gtQ : FpVal → ℚ → Bool
  | .fin q, t => decide (t < q)
  | .pinf, _ => true
  | .ninf, _ => false
  | .nan, _ => false

/-- `np.isnan` on a score. -/
def FpVal.isnanF : FpVal → Bool
  | .nan => true
  | _ => false

/-- `np.median` of a 1-D array: middle element of the sorted data, or the
mean of the two middle elements for even length.  Only ever applied to
nonempty data here (numpy returns NaN for an empty array). -/
def median1 (l : List ℚ) : ℚ :=
  let s := l.insertionSort (· ≤ ·)
  if l.length % 2 = 1 then (s.get? (l.length / 2)).getD 0
  else (((s.get? (l.length / 2 - 1)).getD 0) + ((s.get? (l.length / 2)).getD 0)) / 2

/-- Column `j` of a 2-D array stored as a list of rows (all rows of equal
length in every use below; the `getD 0` default is never reached for
rectangular input and `j` below the width). -/
def col (M : List (List ℚ)) (j : ℕ) : List ℚ :=
  M.map (fun row => (row.get? j).getD 0)

/-- Number of columns of a 2-D array (length of the first row). -/
def ncols (M : List (List ℚ)) : ℕ :=
  (M.head?.map List.length).getD 0

/-- `np.median(data, axis=0)` at column `j`. -/
def colMedian (M : List (List ℚ)) (j : ℕ) : ℚ :=
  median1 (col M j)

/-- `numutils.mad` (numutils.py:23-47) along `axis=0` at column `j`: the
median absolute deviation from the median of the column, times `scale`
(default `1.4826`, the float literal modelled as the exact rational). -/
def colMad (scale : ℚ) (M : List (List ℚ)) (j : ℕ) : ℚ :=
  scale * median1 ((col M j).map (fun x => |x - colMedian M j|))

/-- The default MAD scale `1.4826` of `numutils.mad`. -/
def madScale : ℚ := 14826 / 10000

/-- The divisor used by `numutils.modified_zscore` (numutils.py:69-73) with
`axis=0` at column `j`: the column MAD, or — when `single_mad` is truthy —
`np.median` of the per-column MADs (a single estimate over all the data). -/
def zscoreDen (M : List (List ℚ)) (single_mad : Bool) (j : ℕ) : ℚ :=
  if single_mad then median1 ((List.range (ncols M)).map (colMad madScale M))
  else colMad madScale M j

/-- `numutils.modified_zscore` (numutils.py:50-73) for a 2-D array with
`axis=0`: `(data - median) / mad` entrywise, with the column median
(`keepdims` broadcasting) and the divisor of `zscoreDen`. -/
def modified_zscore (M : List (List ℚ)) (single_mad : Bool) : List (List FpVal) :=
  M.map (fun row =>
    row.enum.map (fun p => fdiv (p.2 - colMedian M p.1) (zscoreDen M single_mad p.1)))

/-- `numutils.outliers` (numutils.py:76-102) for a 2-D array with `axis=0`
(the default): the index pairs (row-major, as `np.where` returns them) of
entries whose modified Z-score magnitude exceeds
`z_threshold = sqrt(2)*erfcinv(p_threshold)`.  That threshold is a finite
real for any `p_threshold ∈ (0, 2)` and enters the embedding as the
parameter `zthr`; no claim depends on its numeric value, only on its
finiteness. -/
def outliers (M : List (List ℚ)) (single_mad : Bool) (zthr : ℚ) : List (ℕ × ℕ) :=
  ((modified_zscore M single_mad).enum.map
    (fun p => p.2.enum.filterMap
      (fun q => if q.2.absF.gtQ zthr then some (p.1, q.1) else none))).join

/-- The `TypeError` raised by the outlier-rejection branch of
`stats.average_trials` (stats.py:161-163): the call
`numutils.outliers(vardata, median_axis=0, mad_axis=None, p_threshold=...)`
passes keyword arguments that `numutils.outliers(x, axis=0, single_mad=None,
p_threshold=1e-3)` (numutils.py:76) does not accept. -/
inductive PyError where
  | typeErrorOutliersKwargs
deriving DecidableEq

/-- Per-variable result record of `average_trials` (stats.py:117-124):
averaged (or median) curve, spread curve, and count of accepted cycles.  In
mean mode the spread list holds the per-column population variance — the
source returns its square root `vardata.std(axis=0)`, irrational in general;
every claim below depends only on which results are null — and in median
mode the per-column scaled MAD (exact). -/
structure VarResult where
  avg : Option (List ℚ)
  spread : Option (List ℚ)
  n_ok : ℕ
deriving DecidableEq

/-- Zero-curve rejection of `average_trials` (stats.py:145-151):
`rows_bad = np.where(np.any(vardata == 0, axis=1))[0]` followed by
`np.delete(vardata, rows_bad, axis=0)` keeps exactly the rows with no zero
entry. -/
def rejectZeroRows (M : List (List ℚ)) : List (List ℚ) :=
  M.filter (fun row => !(row.any (fun x => decide (x = 0))))

/-- `vardata.mean(axis=0)` at column `j`. -/
def colMean (M : List (List ℚ)) (j : ℕ) : ℚ :=
  (col M j).sum / M.length

/-- `vardata.mean(axis=0)` as a list over the columns. -/
def colMeans (M : List (List ℚ)) : List ℚ :=
  (List.range (ncols M)).map (colMean M)

/-- Population variance (`vardata.std(axis=0)` squared; numpy `std` defaults
to `ddof=0`) at column `j`. -/
def colVar (M : List (List ℚ)) (j : ℕ) : ℚ :=
  ((col M j).map (fun x => (x - colMean M j) ^ 2)).sum / M.length

/-- Population variance along the columns. -/
def colVars (M : List (List ℚ)) : List ℚ :=
  (List.range (ncols M)).map (colVar M)

/-- `np.median(vardata, axis=0)` along the columns. -/
def colMedians (M : List (List ℚ)) : List ℚ :=
  (List.range (ncols M)).map (colMedian M)

/-- `numutils.mad(vardata, axis=0)` along the columns (default scale). -/
def colMads (M : List (List ℚ)) : List ℚ :=
  (List.range (ncols M)).map (colMad madScale M)

/-- Per-variable body of the `average_trials` loop (stats.py:134-182):
`None` data gives a null result; zero-curve rejection applies to non-kinetic
variables when `reject_zeros`; when rows remain, `reject_outliers` is not
`None` and `use_medians` is false, the source reaches the
`numutils.outliers(vardata, median_axis=0, mad_axis=None, ...)` call, which
raises `TypeError` (see `PyError`); otherwise zero remaining rows give a
null result with count 0, and the survivors are reduced by median/MAD or by
mean/std. -/
def averageVar (vardata : Option (List (List ℚ))) (is_kinetic : Bool)
    (reject_zeros : Bool) (reject_outliers : Option ℚ) (use_medians : Bool) :
    Except PyError VarResult :=
  match vardata with
  | none => .ok ⟨none, none, 0⟩
  | some M =>
    let M1 := if reject_zeros && !is_kinetic then rejectZeroRows M else M
    if 0 < M1.length ∧ reject_outliers.isSome ∧ use_medians = false then
      .error .typeErrorOutliersKwargs
    else if M1.length = 0 then .ok ⟨none, none, 0⟩
    else if use_medians then
      .ok ⟨some (colMedians M1), some (colMads M1), M1.length⟩
    else
      .ok ⟨some (colMeans M1), some (colVars M1), M1.length⟩

/-- The `for var, vardata in data.items()` loop of `average_trials`
(stats.py:134): each variable is processed independently, in order; a raised
exception aborts the whole call. -/
def averageVarsList (entries : List (String × Option (List (List ℚ))))
    (is_kinetic : String → Bool) (reject_zeros : Bool)
    (reject_outliers : Option ℚ) (use_medians : Bool) :
    Except PyError (List (String × VarResult)) :=
  match entries with
  | [] => .ok []
  | ve :: rest => do
    let r ← averageVar ve.2 (is_kinetic ve.1) reject_zeros reject_outliers use_medians
    let rs ← averageVarsList rest is_kinetic reject_zeros reject_outliers use_medians
    .ok ((ve.1, r) :: rs)

/-- `stats.average_trials` (stats.py:84-186): `_collect_model_data` returns
`None` for zero trials (stats.py:201-203), upon which `average_trials`
returns `(None,)*4` (stats.py:127-128); otherwise the per-variable loop
runs. -/
def average_trials (data : Option (List (String × Option (List (List ℚ)))))
    (is_kinetic : String → Bool) (reject_zeros : Bool)
    (reject_outliers : Option ℚ) (use_medians : Bool) :
    Except PyError (Option (List (String × VarResult))) :=
  match data with
  | none => .ok none
  | some entries =>
    (averageVarsList entries is_kinetic reject_zeros reject_outliers use_medians).map some

/-- The per-cycle information consumed by `_collect_model_data`
(stats.py:235-262): cycle context, forceplate flag, and the normalized curve
for the variable under consideration (scores as floats, so that the
`np.all(np.isnan(data))` check is expressible). -/
structure CycleData where
  context : Char
  on_forceplate : Bool
  data : List FpVal

/-- The gathering loop of `_collect_model_data` (stats.py:233-262) for one
variable over the cycles of all trials (trial loop, then cycle loop): a
cycle contributes its curve iff the variable's context prefix `var[0]`
matches the cycle context, the cycle is skipped when
`(model.is_kinetic_var(var) or fp_cycles_only) and not cycle.on_forceplate`,
and all-NaN curves are skipped. -/
def gatherCycle (var : String) (is_kinetic : Bool) (fp_cycles_only : Bool)
    (c : CycleData) : Option (List FpVal) :=
  if var.data.head? = some c.context then
    if (is_kinetic || fp_cycles_only) && !c.on_forceplate then none
    else if c.data.all (fun v => v.isnanF) then none
    else some c.data
  else none

/-- The collected rows for one variable: `gatherCycle` applied over the
cycles of all trials in order (contributing cycles append their curve as a
row). -/
def collectVar (var : String) (is_kinetic : Bool) (fp_cycles_only : Bool)
    (cycles : List CycleData) : List (List FpVal) :=
  cycles.filterMap (gatherCycle var is_kinetic fp_cycles_only)

theorem pyRound_eq_floor (x : ℚ) (h : 0 ≤ x) : pyRound x = ⌊x + 1/2⌋ := by
  simp [pyRound, h]

theorem mkGaitcycle_ex_start_smp :
    (mkGaitcycle 2 4 0 3 'R' false (7/3)).start_smp = 5 := by
  norm_num [mkGaitcycle, pyRound]

theorem mkGaitcycle_ex_end_smp :
    (mkGaitcycle 2 4 0 3 'R' false (7/3)).end_smp = 9 := by
  norm_num [mkGaitcycle, pyRound]

theorem length_linspace (a b : ℚ) (n : ℕ) : (linspace a b n).length = n := by
  rcases le_or_lt n 1 with h | h
  · simp [linspace, h]
  · simp [linspace, Nat.not_le.mpr h]

theorem pyRound_bounds_0_100 (x : ℚ) (h0 : 0 < x) (h1 : x < 100) :
    0 ≤ pyRound x ∧ pyRound x ≤ 100 := by
  rw [pyRound_eq_floor x h0.le]
  constructor
  · exact Int.le_floor.mpr (by push_cast; linarith)
  · have hlt : (x + 1/2 : ℚ) < ((101 : ℤ) : ℚ) := by push_cast; linarith
    have := Int.floor_lt.mpr hlt
    omega

/-- C9: the normalized toe-off of a valid cycle is
`round(100·(toeoff-start)/(end-start))` and lies in `[0, 100]`. -/
theorem toeoffn_formula_and_bounds (start end_ offset toeoff : ℤ) (context : Char)
    (on_forceplate : Bool) (smp_per_frame : ℚ)
    (h1 : start < toeoff) (h2 : toeoff < end_) :
    (mkGaitcycle start end_ offset toeoff context on_forceplate smp_per_frame).toeoffn
      = pyRound (100 * (((toeoff - start : ℤ) : ℚ) / ((end_ - start : ℤ) : ℚ)))
    ∧ 0 ≤ (mkGaitcycle start end_ offset toeoff context on_forceplate smp_per_frame).toeoffn
    ∧ (mkGaitcycle start end_ offset toeoff context on_forceplate smp_per_frame).toeoffn ≤ 100 := by
  have hts : (toeoff - offset) - (start - offset) = toeoff - start := by ring
  have hform : (mkGaitcycle start end_ offset toeoff context on_forceplate smp_per_frame).toeoffn
      = pyRound (100 * (((toeoff - start : ℤ) : ℚ) / ((end_ - start : ℤ) : ℚ))) := by
    simp only [mkGaitcycle, hts]
  have hden : (0 : ℚ) < ((end_ - start : ℤ) : ℚ) := by
    exact_mod_cast sub_pos.mpr (h1.trans h2)
  have hnum : (0 : ℚ) < ((toeoff - start : ℤ) : ℚ) := by
    exact_mod_cast sub_pos.mpr h1
  have hr1 : ((toeoff - start : ℤ) : ℚ) / ((end_ - start : ℤ) : ℚ) < 1 := by
    rw [div_lt_one hden]
    exact_mod_cast sub_lt_sub_right h2 start
  have hr0 : (0 : ℚ) < ((toeoff - start : ℤ) : ℚ) / ((end_ - start : ℤ) : ℚ) :=
    div_pos hnum hden
  have hb := pyRound_bounds_0_100
    (100 * (((toeoff - start : ℤ) : ℚ) / ((end_ - start : ℤ) : ℚ)))
    (by linarith) (by nlinarith)
  exact ⟨hform, hform ▸ hb.1, hform ▸ hb.2⟩

/-- Witness for C9 at `start=10, end=20, toeoff=16`. -/
theorem toeoffn_formula_and_bounds_witness :
    (mkGaitcycle 10 20 0 16 'L' false 10).toeoffn
      = pyRound (100 * (((16 - 10 : ℤ) : ℚ) / ((20 - 10 : ℤ) : ℚ)))
    ∧ 0 ≤ (mkGaitcycle 10 20 0 16 'L' false 10).toeoffn
    ∧ (mkGaitcycle 10 20 0 16 'L' false 10).toeoffn ≤ 100 :=
  toeoffn_formula_and_bounds 10 20 0 16 'L' false 10 (by decide) (by decide)

theorem linspace_first (a b : ℚ) (n : ℕ) (h : 1 ≤ n) :
    (linspace a b n).get? 0 = some a := by
  rcases le_or_lt n 1 with h1 | h1
  · have hn : n = 1 := le_antisymm h1 h
    subst hn
    simp [linspace]
  · simp [linspace, Nat.not_le.mpr h1, List.getElem?_map, List.getElem?_range,
      Nat.lt_of_lt_of_le Nat.zero_lt_one h]

theorem linspace_last (a b : ℚ) (n : ℕ) (h : 2 ≤ n) :
    (linspace a b n).get? (n - 1) = some b := by
  have h1 : ¬n ≤ 1 := by omega
  have hlt : n - 1 < n := by omega
  have hne : ((n : ℚ) - 1) ≠ 0 := by
    have : (2 : ℚ) ≤ (n : ℚ) := by exact_mod_cast h
    linarith
  simp only [linspace, if_neg h1, List.get?_map, List.get?_range hlt,
    Option.map_some']
  congr 1
  have hcast : (((n - 1 : ℕ) : ℚ)) = (n : ℚ) - 1 := by
    have : (1 : ℕ) ≤ n := by omega
    push_cast [this]
    ring
  rw [hcast]
  field_simp

/-- C7 (amended): for a cycle built by `Gaitcycle.__init__` and an analog
curve long enough to cover it, `crop_analog` returns exactly
`end_smp - start_smp` data points, where `start_smp = round(start·spf)` and
`end_smp = round(end·spf)` are rounded separately (this count differs in
general from `round((end-start)·spf)`, see the counterexample), together with
a time axis of the same length spanning 0 to 100. -/
theorem crop_analog_len_and_axis (start end_ offset toeoff : ℤ) (context : Char)
    (on_forceplate : Bool) (spf : ℚ) (var : List ℚ) (c : Gaitcycle)
    (hc : c = mkGaitcycle start end_ offset toeoff context on_forceplate spf)
    (h0 : 0 ≤ c.start_smp) (h1 : c.start_smp ≤ c.end_smp)
    (h2 : c.end_smp.toNat ≤ var.length) :
    (c.crop_analog var).2.length = (c.end_smp - c.start_smp).toNat
    ∧ (c.crop_analog var).1.length = (c.end_smp - c.start_smp).toNat
    ∧ (2 ≤ (c.end_smp - c.start_smp).toNat →
        (c.crop_analog var).1.get? 0 = some 0
        ∧ (c.crop_analog var).1.get? ((c.end_smp - c.start_smp).toNat - 1) = some 100) := by
  have hlen : c.len_smp = c.end_smp - c.start_smp := by
    rw [hc]; rfl
  refine ⟨?_, ?_, ?_⟩
  · simp only [Gaitcycle.crop_analog, pySlice, List.length_take, List.length_drop]
    omega
  · simp only [Gaitcycle.crop_analog, Gaitcycle.tn_analog, length_linspace, hlen]
  · intro hn2
    rw [Gaitcycle.crop_analog, Gaitcycle.tn_analog, hlen]
    exact ⟨linspace_first 0 100 _ (by omega), linspace_last 0 100 _ hn2⟩

/-- Witness for C7 (amended) at `start=2, end=4, toeoff=3, offset=0,
samples-per-frame 7/3` and an analog curve of 12 samples. -/
theorem crop_analog_len_and_axis_witness :
    ((mkGaitcycle 2 4 0 3 'R' false (7/3)).crop_analog
        ((List.range 12).map (fun (i : ℕ) => (i : ℚ)))).2.length
      = ((mkGaitcycle 2 4 0 3 'R' false (7/3)).end_smp
          - (mkGaitcycle 2 4 0 3 'R' false (7/3)).start_smp).toNat
    ∧ ((mkGaitcycle 2 4 0 3 'R' false (7/3)).crop_analog
        ((List.range 12).map (fun (i : ℕ) => (i : ℚ)))).1.length
      = ((mkGaitcycle 2 4 0 3 'R' false (7/3)).end_smp
          - (mkGaitcycle 2 4 0 3 'R' false (7/3)).start_smp).toNat
    ∧ (2 ≤ ((mkGaitcycle 2 4 0 3 'R' false (7/3)).end_smp
          - (mkGaitcycle 2 4 0 3 'R' false (7/3)).start_smp).toNat →
        ((mkGaitcycle 2 4 0 3 'R' false (7/3)).crop_analog
            ((List.range 12).map (fun (i : ℕ) => (i : ℚ)))).1.get? 0 = some 0
        ∧ ((mkGaitcycle 2 4 0 3 'R' false (7/3)).crop_analog
            ((List.range 12).map (fun (i : ℕ) => (i : ℚ)))).1.get?
            (((mkGaitcycle 2 4 0 3 'R' false (7/3)).end_smp
              - (mkGaitcycle 2 4 0 3 'R' false (7/3)).start_smp).toNat - 1) = some 100) := by
  refine crop_analog_len_and_axis 2 4 0 3 'R' false (7/3)
    ((List.range 12).map (fun (i : ℕ) => (i : ℚ))) _ rfl ?_ ?_ ?_
  · rw [mkGaitcycle_ex_start_smp]; decide
  · rw [mkGaitcycle_ex_start_smp, mkGaitcycle_ex_end_smp]; decide
  · rw [mkGaitcycle_ex_end_smp]; simp

/-- C7 counterexample: with `start=2, end=4, samples-per-frame 7/3`,
`crop_analog` returns `round(4·7/3) - round(2·7/3) = 9 - 5 = 4` points, while
the claimed count `round((end-start)·spf) = round(14/3) = 5` differs. -/
theorem crop_analog_len_counterexample :
    (((mkGaitcycle 2 4 0 3 'R' false (7/3)).crop_analog
        ((List.range 12).map (fun (i : ℕ) => (i : ℚ)))).2.length : ℤ)
      ≠ pyRound ((((4 : ℤ) : ℚ) - ((2 : ℤ) : ℚ)) * (7/3)) := by
  have h2 : pyRound ((((4 : ℤ) : ℚ) - ((2 : ℤ) : ℚ)) * (7/3)) = 5 := by
    norm_num [pyRound]
  have hlen : (((mkGaitcycle 2 4 0 3 'R' false (7/3)).crop_analog
      ((List.range 12).map (fun (i : ℕ) => (i : ℚ)))).2.length) = 4 := by
    simp [Gaitcycle.crop_analog, pySlice, mkGaitcycle_ex_start_smp,
      mkGaitcycle_ex_end_smp]
  rw [hlen, h2]
  decide

theorem except_map_ok {α β ε : Type} (f : α → β) (e : Except ε α) (y : β) :
    e.map f = .ok y ↔ ∃ x, e = .ok x ∧ y = f x := by
  cases e <;> simp [Except.map, eq_comm]

/-- C3: per-side segmentation.  `scanSide` succeeds iff every consecutive
strike pair's window contains exactly one toe-off strictly inside; on success
the k-th cycle is built from the k-th window and its unique inner toe-off; a
window with zero or several toe-offs makes the whole scan fail with a
`GaitDataError`, and such an error propagates through `scanCycles` to the
caller instead of being absorbed. -/
theorem scanSide_segmentation :
    (∀ (strikes toeoffs : List ℤ) (context : Char) (fp : List ℤ) (offset : ℤ)
      (spf : ℚ),
      ((∃ cys, scanSide strikes toeoffs context fp offset spf = .ok cys)
        ↔ ∀ p ∈ strikes.zip strikes.tail, (toeoffsIn toeoffs p.1 p.2).length = 1)
      ∧ (∀ cys, scanSide strikes toeoffs context fp offset spf = .ok cys →
          cys.length = (strikes.zip strikes.tail).length
          ∧ ∀ k p, (strikes.zip strikes.tail).get? k = some p →
              ∃ t, toeoffsIn toeoffs p.1 p.2 = [t]
                ∧ cys.get? k
                  = some (mkGaitcycle p.1 p.2 offset t context (onFp fp p.1 offset) spf)))
    ∧ (∀ (ls rs lt rt fl fr : List ℤ) (off : ℤ) (spf : ℚ) e,
        2 ≤ ls.length → scanSide ls lt 'L' fl off spf = .error e →
        scanCycles ls rs lt rt fl fr off spf = .error e)
    ∧ (∀ (ls rs lt rt fl fr : List ℤ) (off : ℤ) (spf : ℚ) e lcys,
        2 ≤ ls.length → 2 ≤ rs.length → rs ≠ ls →
        scanSide ls lt 'L' fl off spf = .ok lcys →
        scanSide rs rt 'R' fr off spf = .error e →
        scanCycles ls rs lt rt fl fr off spf = .error e) := by
  refine ⟨?_, ?_, ?_⟩
  · intro strikes
    induction strikes with
    | nil => intro toeoffs context fp offset spf; simp [scanSide]
    | cons s0 tl ih =>
      cases tl with
      | nil => intro toeoffs context fp offset spf; simp [scanSide]
      | cons s1 rest =>
        intro toeoffs context fp offset spf
        have ihspec := ih toeoffs context fp offset spf
        rcases htos : toeoffsIn toeoffs s0 s1 with _ | ⟨t, tother⟩
        · constructor
          · constructor
            · rintro ⟨cys, hcys⟩
              rw [scanSide, htos] at hcys
              exact absurd hcys (by simp)
            · intro hall
              have := hall (s0, s1) (by simp)
              rw [htos] at this
              simp at this
          · intro cys hcys
            rw [scanSide, htos] at hcys
            exact absurd hcys (by simp)
        · cases tother with
          | nil =>
            constructor
            · constructor
              · rintro ⟨cys, hcys⟩
                rw [scanSide, htos] at hcys
                rw [except_map_ok] at hcys
                obtain ⟨cys', hok', -⟩ := hcys
                intro p hp
                rcases List.mem_cons.mp hp with hph | hpt
                · subst hph; rw [htos]; rfl
                · exact (ihspec.1.mp ⟨cys', hok'⟩) p hpt
              · intro hall
                obtain ⟨cys', hok'⟩ := ihspec.1.mpr (fun p hp => hall p (List.mem_cons_of_mem _ hp))
                refine ⟨mkGaitcycle s0 s1 offset t context (onFp fp s0 offset) spf :: cys', ?_⟩
                rw [scanSide, htos, hok']
                rfl
            · intro cys hcys
              rw [scanSide, htos] at hcys
              rw [except_map_ok] at hcys
              obtain ⟨cys', hok', hconscys⟩ := hcys
              subst hconscys
              obtain ⟨hlen', hget'⟩ := ihspec.2 cys' hok'
              constructor
              · simp [hlen']
              · intro k p hkp
                cases k with
                | zero =>
                  simp only [List.zip_cons_cons, List.get?] at hkp
                  cases hkp
                  exact ⟨t, htos, rfl⟩
                | succ k' =>
                  simp only [List.zip_cons_cons, List.get?] at hkp
                  exact hget' k' p hkp
          | cons t2 ts =>
            constructor
            · constructor
              · rintro ⟨cys, hcys⟩
                rw [scanSide, htos] at hcys
                exact absurd hcys (by simp)
              · intro hall
                have := hall (s0, s1) (by simp)
                rw [htos] at this
                simp at this
            · intro cys hcys
              rw [scanSide, htos] at hcys
              exact absurd hcys (by simp)
  · intro ls rs lt rt fl fr off spf e hls herr
    rw [scanCycles, if_neg (by omega)]
    simp only [bind, Except.bind, herr]
  · intro ls rs lt rt fl fr off spf e lcys hls hrs hne hok herr
    rw [scanCycles, if_neg (by omega)]
    simp only [bind, Except.bind, hok, if_neg (by omega : ¬rs.length < 2), if_neg hne]
    simp only [herr]

/-- Witness for C3: the side `strikes=[10,40,70], toeoffs=[25,55]` has exactly
one toe-off per window, so the scan succeeds; the side `strikes=[10,40]` with
no toe-offs fails and the error propagates through `scanCycles`. -/
theorem scanSide_segmentation_witness :
    (∃ cys, scanSide [10, 40, 70] [25, 55] 'R' [] 0 1 = .ok cys)
    ∧ scanCycles [10, 40] [50, 80] [] [60] [] [] 0 1
        = .error (.noToeoff 10) := by
  constructor
  · exact (scanSide_segmentation.1 [10, 40, 70] [25, 55] 'R' [] 0 1).1.mpr (by decide)
  · exact scanSide_segmentation.2.1 [10, 40] [50, 80] [] [60] [] [] 0 1
      (.noToeoff 10) (by decide) rfl

/-- C2 (code bug): a left side with fewer than 2 strikes terminates the
`_scan_cycles` generator via `return`, suppressing the right side entirely;
the right side alone would have produced 2 valid cycles. -/
theorem scanCycles_left_short_suppresses_right :
    scanCycles [] [10, 40, 70] [] [25, 55] [] [] 0 1 = .ok []
    ∧ (scanSide [10, 40, 70] [25, 55] 'R' [] 0 1).map
        (List.map (fun c => (c.start, c.end_, c.toeoff)))
      = .ok [(10, 40, 25), (40, 70, 55)] := by
  constructor
  · rfl
  · rfl

/-- C4: in `_collect_model_data`, a kinetic variable's curve is gathered only
from cycles with `on_forceplate`, regardless of `fp_cycles_only` (the
gathering is identical to the `fp_cycles_only=True` run), while a non-kinetic
variable with `fp_cycles_only=False` is gathered from every context-matching
cycle with usable (not all-NaN) data. -/
theorem collectVar_eq_filter (var : String) (kin fp : Bool) (cycles : List CycleData) :
    collectVar var kin fp cycles
      = (cycles.filter (fun c => decide (var.data.head? = some c.context)
          && !((kin || fp) && !c.on_forceplate)
          && !(c.data.all (fun v => v.isnanF)))).map (fun c => c.data) := by
  induction cycles with
  | nil => rfl
  | cons c cs ih =>
    simp only [collectVar] at ih ⊢
    by_cases h1 : var.data.head? = some c.context
    · by_cases h2 : ((kin || fp) && !c.on_forceplate) = true
      · have hg : gatherCycle var kin fp c = none := by
          rw [gatherCycle, if_pos h1, if_pos h2]
        rw [List.filterMap_cons_none hg, List.filter_cons_of_neg (by simp [h2]), ih]
      · by_cases h3 : (c.data.all fun v => v.isnanF) = true
        · have hg : gatherCycle var kin fp c = none := by
            rw [gatherCycle, if_pos h1, if_neg h2, if_pos h3]
          rw [List.filterMap_cons_none hg, List.filter_cons_of_neg (by simp [h3]), ih]
        · have hg : gatherCycle var kin fp c = some c.data := by
            rw [gatherCycle, if_pos h1, if_neg h2, if_neg h3]
          rw [List.filterMap_cons_some hg,
            List.filter_cons_of_pos (by simp [h1, h2, h3]), List.map_cons, ih]
    · have hg : gatherCycle var kin fp c = none := by
        rw [gatherCycle, if_neg h1]
      rw [List.filterMap_cons_none hg, List.filter_cons_of_neg (by simp [h1]), ih]

theorem collect_kinetic_forceplate_only (var : String) (fp_cycles_only : Bool)
    (cycles : List CycleData) :
    collectVar var true fp_cycles_only cycles = collectVar var true true cycles
    ∧ collectVar var true fp_cycles_only cycles
        = (cycles.filter (fun c => decide (var.data.head? = some c.context)
            && c.on_forceplate && !(c.data.all (fun v => v.isnanF)))).map
            (fun c => c.data)
    ∧ collectVar var false false cycles
        = (cycles.filter (fun c => decide (var.data.head? = some c.context)
            && !(c.data.all (fun v => v.isnanF)))).map (fun c => c.data) := by
  refine ⟨?_, ?_, ?_⟩
  · rw [collectVar_eq_filter, collectVar_eq_filter]
    simp only [Bool.true_or]
  · rw [collectVar_eq_filter]
    simp only [Bool.true_or, Bool.true_and, Bool.not_not]
  · rw [collectVar_eq_filter]
    simp only [Bool.or_self, Bool.false_and, Bool.not_false, Bool.and_true]

/-- C10: with `use_medians=True`, `average_trials` never performs outlier
rejection (its per-variable result does not depend on `reject_outliers`), and
a variable whose matrix keeps at least one row after zero-curve rejection is
reduced to the per-column median together with the per-column MAD scaled by
1.4826. -/
theorem average_trials_medians_skip_outlier_rejection
    (vardata : Option (List (List ℚ))) (is_kinetic reject_zeros : Bool)
    (reject_outliers : Option ℚ) :
    averageVar vardata is_kinetic reject_zeros reject_outliers true
      = averageVar vardata is_kinetic reject_zeros none true
    ∧ (∀ M, vardata = some M →
        0 < (if reject_zeros && !is_kinetic then rejectZeroRows M else M).length →
        averageVar vardata is_kinetic reject_zeros reject_outliers true
          = .ok ⟨some (colMedians (if reject_zeros && !is_kinetic then rejectZeroRows M else M)),
              some (colMads (if reject_zeros && !is_kinetic then rejectZeroRows M else M)),
              (if reject_zeros && !is_kinetic then rejectZeroRows M else M).length⟩) := by
  constructor
  · cases vardata with
    | none => rfl
    | some M => simp [averageVar]
  · rintro M rfl hpos
    simp only [averageVar]
    rw [if_neg (by simp), if_neg (by omega)]
    simp

/-- Witness for C10 on the matrix `[[1,2],[3,4]]` with `reject_outliers`
set. -/
theorem average_trials_medians_skip_outlier_rejection_witness :
    averageVar (some [[1, 2], [3, 4]]) false true (some (1/1000)) true
      = .ok ⟨some (colMedians (if true && !false then rejectZeroRows [[1, 2], [3, 4]]
              else [[1, 2], [3, 4]])),
          some (colMads (if true && !false then rejectZeroRows [[1, 2], [3, 4]]
              else [[1, 2], [3, 4]])),
          (if true && !false then rejectZeroRows [[1, 2], [3, 4]]
              else [[1, 2], [3, 4]]).length⟩ :=
  (average_trials_medians_skip_outlier_rejection (some [[1, 2], [3, 4]]) false true
    (some (1/1000))).2 [[1, 2], [3, 4]] rfl (by decide)

/-- C5: with `reject_zeros` on, a non-kinetic variable keeps exactly the rows
with no exact-zero entry (the zero-containing rows are dropped before
reduction, so the reported count and the mean come from the survivors only),
while a kinetic variable's matrix is never zero-rejected.  (`reject_outliers`
is `None` here so that the reduction is reached; with it set the source
raises `TypeError`, see C1.) -/
theorem zero_curve_rejection (M : List (List ℚ))
    (hF : rejectZeroRows M ≠ []) (hM : M ≠ []) :
    rejectZeroRows M = M.filter (fun row => decide ((0 : ℚ) ∉ row))
    ∧ averageVar (some M) false true none false
        = .ok ⟨some (colMeans (rejectZeroRows M)), some (colVars (rejectZeroRows M)),
            (rejectZeroRows M).length⟩
    ∧ averageVar (some M) true true none false
        = .ok ⟨some (colMeans M), some (colVars M), M.length⟩ := by
  refine ⟨?_, ?_, ?_⟩
  · unfold rejectZeroRows
    apply List.filter_congr
    intro row _
    rw [Bool.eq_iff_iff]
    simp only [Bool.not_eq_true', List.any_eq_false, decide_eq_false_iff_not,
      decide_eq_true_eq]
    constructor
    · intro h hmem
      exact h 0 hmem rfl
    · intro h x hx hx0
      exact h (hx0 ▸ hx)
  · simp only [averageVar]
    rw [if_neg (by simp), if_neg (by simpa using hF)]
    rfl
  · simp only [averageVar]
    rw [if_neg (by simp), if_neg (by simpa using hM)]
    rfl

theorem colMeans_replicate (n w : ℕ) (q : ℚ) (hn : n ≠ 0) :
    colMeans (List.replicate n (List.replicate w q)) = List.replicate w q := by
  have hcol : ∀ j : ℕ, j < w →
      col (List.replicate n (List.replicate w q)) j = List.replicate n q := by
    intro j hj
    unfold col
    rw [List.map_replicate]
    congr 1
    simp [List.getElem?_replicate, hj]
  have hmean : ∀ j : ℕ, j < w →
      colMean (List.replicate n (List.replicate w q)) j = q := by
    intro j hj
    unfold colMean
    rw [hcol j hj, List.sum_replicate, List.length_replicate, nsmul_eq_mul]
    exact mul_div_cancel_left₀ q (Nat.cast_ne_zero.mpr hn)
  have hw : ncols (List.replicate n (List.replicate w q)) = w := by
    unfold ncols
    cases n with
    | zero => exact absurd rfl hn
    | succ m => simp [List.replicate_succ]
  unfold colMeans
  rw [hw]
  rw [List.map_congr_left (fun j hj => hmean j (List.mem_range.mp hj))]
  simp [List.map_const']

/-- Witness for C5: the spec's 5×101 example — four identical all-ones curves
plus one curve with a single zero entry; the zero-containing curve is
dropped, the accepted count is 4, and the mean is the common curve (the zero
curve is excluded from it). -/
theorem zero_curve_rejection_witness :
    rejectZeroRows (List.replicate 4 (List.replicate 101 (1 : ℚ))
        ++ [(0 : ℚ) :: List.replicate 100 (1 : ℚ)])
      = (List.replicate 4 (List.replicate 101 (1 : ℚ))
        ++ [(0 : ℚ) :: List.replicate 100 (1 : ℚ)]).filter
          (fun row => decide ((0 : ℚ) ∉ row))
    ∧ averageVar (some (List.replicate 4 (List.replicate 101 (1 : ℚ))
          ++ [(0 : ℚ) :: List.replicate 100 (1 : ℚ)])) false true none false
        = .ok ⟨some (colMeans (rejectZeroRows (List.replicate 4 (List.replicate 101 (1 : ℚ))
              ++ [(0 : ℚ) :: List.replicate 100 (1 : ℚ)]))),
            some (colVars (rejectZeroRows (List.replicate 4 (List.replicate 101 (1 : ℚ))
              ++ [(0 : ℚ) :: List.replicate 100 (1 : ℚ)]))),
            (rejectZeroRows (List.replicate 4 (List.replicate 101 (1 : ℚ))
              ++ [(0 : ℚ) :: List.replicate 100 (1 : ℚ)])).length⟩
    ∧ rejectZeroRows (List.replicate 4 (List.replicate 101 (1 : ℚ))
          ++ [(0 : ℚ) :: List.replicate 100 (1 : ℚ)])
        = List.replicate 4 (List.replicate 101 (1 : ℚ))
    ∧ (rejectZeroRows (List.replicate 4 (List.replicate 101 (1 : ℚ))
          ++ [(0 : ℚ) :: List.replicate 100 (1 : ℚ)])).length = 4
    ∧ colMeans (List.replicate 4 (List.replicate 101 (1 : ℚ)))
        = List.replicate 101 (1 : ℚ) := by
  have hrej : rejectZeroRows (List.replicate 4 (List.replicate 101 (1 : ℚ))
      ++ [(0 : ℚ) :: List.replicate 100 (1 : ℚ)])
      = List.replicate 4 (List.replicate 101 (1 : ℚ)) := by decide
  have h := zero_curve_rejection
    (List.replicate 4 (List.replicate 101 (1 : ℚ))
      ++ [(0 : ℚ) :: List.replicate 100 (1 : ℚ)])
    (by rw [hrej]; decide) (by decide)
  exact ⟨h.1, h.2.1, hrej, by rw [hrej]; rfl, colMeans_replicate 4 101 1 (by decide)⟩

/-- Success of the per-variable loop: each variable's result is exactly its
own independent `averageVar` outcome. -/
theorem averageVarsList_ok (entries : List (String × Option (List (List ℚ))))
    (is_kinetic : String → Bool) (rz : Bool) (ro : Option ℚ) (um : Bool)
    (res : List (String × VarResult))
    (h : averageVarsList entries is_kinetic rz ro um = .ok res) :
    res.length = entries.length
    ∧ ∀ k v m, entries.get? k = some (v, m) →
        ∃ r, res.get? k = some (v, r)
          ∧ averageVar m (is_kinetic v) rz ro um = .ok r := by
  induction entries generalizing res with
  | nil =>
    rw [averageVarsList] at h
    cases h
    exact ⟨rfl, by intro k v m hk; simp at hk⟩
  | cons ve rest ih =>
    rw [averageVarsList] at h
    cases hv : averageVar ve.2 (is_kinetic ve.1) rz ro um with
    | error e => rw [hv] at h; exact absurd h (by simp [Bind.bind, Except.bind])
    | ok r =>
      rw [hv] at h
      cases hrest : averageVarsList rest is_kinetic rz ro um with
      | error e =>
        rw [hrest] at h
        exact absurd h (by simp [Bind.bind, Except.bind])
      | ok rs =>
        rw [hrest] at h
        simp only [Bind.bind, Except.bind] at h
        cases h
        obtain ⟨hlen, hget⟩ := ih rs hrest
        constructor
        · simp [hlen]
        · intro k v m hk
          cases k with
          | zero =>
            simp only [List.get?] at hk
            cases hk
            exact ⟨r, rfl, hv⟩
          | succ k' =>
            simp only [List.get?] at hk ⊢
            exact hget k' v m hk

/-- C8: aggregation with zero trials returns the all-null quadruple rather
than raising; a variable with zero rows remaining after rejection yields a
null result with accepted count 0; and in any completed call every variable's
result is its own independent `averageVar` outcome, so one variable's empty
data does not disturb the others. -/
theorem average_trials_empty_inputs :
    (∀ (is_kinetic : String → Bool) (rz : Bool) (ro : Option ℚ) (um : Bool),
      average_trials none is_kinetic rz ro um = .ok none)
    ∧ (∀ (M : List (List ℚ)) (kin rz : Bool) (ro : Option ℚ) (um : Bool),
        (if rz && !kin then rejectZeroRows M else M) = [] →
        averageVar (some M) kin rz ro um = .ok ⟨none, none, 0⟩)
    ∧ (∀ (entries : List (String × Option (List (List ℚ))))
        (is_kinetic : String → Bool) (rz : Bool) (ro : Option ℚ) (um : Bool)
        (res : List (String × VarResult)),
        average_trials (some entries) is_kinetic rz ro um = .ok (some res) →
        res.length = entries.length
        ∧ ∀ k v m, entries.get? k = some (v, m) →
            ∃ r, res.get? k = some (v, r)
              ∧ averageVar m (is_kinetic v) rz ro um = .ok r) := by
  refine ⟨fun _ _ _ _ => rfl, ?_, ?_⟩
  · intro M kin rz ro um h
    simp only [averageVar, h]
    rfl
  · intro entries is_kinetic rz ro um res h
    rw [average_trials] at h
    cases hlist : averageVarsList entries is_kinetic rz ro um with
    | error e => rw [hlist] at h; exact absurd h (by simp [Except.map])
    | ok r0 =>
      rw [hlist] at h
      simp only [Except.map] at h
      have hr0 : r0 = res := by
        cases h
        rfl
      subst hr0
      exact averageVarsList_ok entries is_kinetic rz ro um r0 hlist

/-- Witness for C8: zero trials give the null quadruple; a variable whose
only curve contains a zero ends with zero accepted rows and a null result,
with outlier rejection requested, while the other (absent-data) variable's
null result is preserved alongside it. -/
theorem average_trials_empty_inputs_witness :
    average_trials none (fun _ => false) true (some (1/1000)) false = .ok none
    ∧ averageVar (some [[0, 2]]) false true (some (1/1000)) false
        = .ok ⟨none, none, 0⟩
    ∧ (∃ r, ([("LHipAnglesX", VarResult.mk none none 0),
          ("RHipAnglesX", VarResult.mk none none 0)]).get? 0
            = some ("LHipAnglesX", r)
        ∧ averageVar (some [[0, 2]]) false true (some (1/1000)) false = .ok r) := by
  refine ⟨average_trials_empty_inputs.1 (fun _ => false) true (some (1/1000)) false,
    average_trials_empty_inputs.2.1 [[0, 2]] false true (some (1/1000)) false (by decide),
    ?_⟩
  have h := (average_trials_empty_inputs.2.2
    [("LHipAnglesX", some [[0, 2]]), ("RHipAnglesX", (none : Option (List (List ℚ))))]
    (fun _ => false) true (some (1/1000)) false
    [("LHipAnglesX", VarResult.mk none none 0), ("RHipAnglesX", VarResult.mk none none 0)]
    rfl).2 0 "LHipAnglesX" (some [[0, 2]]) rfl
  exact h

/-- C1 (code bug): whenever the outlier-rejection branch of `average_trials`
is reached (rows remain, `reject_outliers` is not `None`, means mode), the
call `numutils.outliers(vardata, median_axis=0, mad_axis=None, ...)` raises
`TypeError`, because `numutils.outliers` accepts `(x, axis, single_mad,
p_threshold)`; no modified Z-scores are computed and no averaging happens. -/
theorem average_trials_outlier_branch_type_error :
    averageVar (some [[1, 2], [3, 4]]) false true (some (1/1000)) false
      = .error .typeErrorOutliersKwargs
    ∧ average_trials (some [("LKneeAnglesX", some [[1, 2], [3, 4]])])
        (fun _ => false) true (some (1/1000)) false
      = .error .typeErrorOutliersKwargs := by
  exact ⟨rfl, rfl⟩

/-- C6 (amended): when the robust spread used by `outliers()` degenerates to
an exactly zero MAD, any entry differing from the column median is flagged as
an outlier — not because the division is explicitly guarded (it is not), but
because the IEEE division yields `±inf`, whose magnitude exceeds every finite
threshold.  Entries equal to the median get `0/0 = nan` scores and are not
flagged, which never silently accepts a deviating entry. -/
theorem outliers_flag_deviation_from_zero_mad (M : List (List ℚ)) (sm : Bool)
    (zthr : ℚ) (i j : ℕ) (row : List ℚ) (x : ℚ)
    (hrow : M.get? i = some row) (hx : row.get? j = some x)
    (hmad : zscoreDen M sm j = 0) (hne : x ≠ colMedian M j) :
    (i, j) ∈ outliers M sm zthr := by
  have hzrow : (modified_zscore M sm).get? i
      = some (row.enum.map
          (fun p => fdiv (p.2 - colMedian M p.1) (zscoreDen M sm p.1))) := by
    rw [modified_zscore, List.get?_map, hrow, Option.map_some']
  have hscore : (row.enum.map
        (fun p => fdiv (p.2 - colMedian M p.1) (zscoreDen M sm p.1))).get? j
      = some (fdiv (x - colMedian M j) (zscoreDen M sm j)) := by
    rw [List.get?_map, List.get?_enum, hx]
    rfl
  have hfd : fdiv (x - colMedian M j) (zscoreDen M sm j) = FpVal.pinf
      ∨ fdiv (x - colMedian M j) (zscoreDen M sm j) = FpVal.ninf := by
    rw [hmad, fdiv]
    by_cases hpos : 0 < x - colMedian M j
    · left
      rw [if_neg (by simp), if_pos hpos]
    · right
      have hneg : x - colMedian M j < 0 := by
        rcases lt_trichotomy (x - colMedian M j) 0 with h | h | h
        · exact h
        · exact absurd (sub_eq_zero.mp h) hne
        · exact absurd h hpos
      rw [if_neg (by simp), if_neg hpos, if_pos hneg]
  have hgt : (fdiv (x - colMedian M j) (zscoreDen M sm j)).absF.gtQ zthr = true := by
    rcases hfd with h | h <;> rw [h] <;> rfl
  rw [outliers]
  apply List.mem_join.mpr
  refine ⟨(row.enum.map
      (fun p => fdiv (p.2 - colMedian M p.1) (zscoreDen M sm p.1))).enum.filterMap
      (fun q => if q.2.absF.gtQ zthr then some (i, q.1) else none), ?_, ?_⟩
  · apply List.get?_mem (n := i)
    rw [List.get?_map, List.get?_enum, hzrow]
    rfl
  · apply List.mem_filterMap.mpr
    refine ⟨(j, fdiv (x - colMedian M j) (zscoreDen M sm j)), ?_, ?_⟩
    · exact List.mem_enum_iff_get?.mpr hscore
    · rw [if_pos hgt]

theorem colMedian_ex_0 : colMedian [[1, 1], [1, 1], [1, 3]] 0 = 1 := by
  norm_num [colMedian, col, median1, List.insertionSort, List.orderedInsert]

theorem colMedian_ex_1 : colMedian [[1, 1], [1, 1], [1, 3]] 1 = 1 := by
  norm_num [colMedian, col, median1, List.insertionSort, List.orderedInsert]

theorem zscoreDen_ex_0 : zscoreDen [[1, 1], [1, 1], [1, 3]] false 0 = 0 := by
  rw [zscoreDen, if_neg (by simp), colMad]
  have hdev : (col [[1, 1], [1, 1], [1, 3]] 0).map
      (fun x => |x - colMedian [[1, 1], [1, 1], [1, 3]] 0|) = [0, 0, 0] := by
    rw [colMedian_ex_0]
    norm_num [col]
  rw [hdev]
  norm_num [median1, List.insertionSort, List.orderedInsert]

theorem zscoreDen_ex_1 : zscoreDen [[1, 1], [1, 1], [1, 3]] false 1 = 0 := by
  rw [zscoreDen, if_neg (by simp), colMad]
  have hdev : (col [[1, 1], [1, 1], [1, 3]] 1).map
      (fun x => |x - colMedian [[1, 1], [1, 1], [1, 3]] 1|) = [0, 0, 2] := by
    rw [colMedian_ex_1]
    norm_num [col]
  rw [hdev]
  norm_num [median1, List.insertionSort, List.orderedInsert]

/-- Witness for C6 (amended) on the matrix `[[1,1],[1,1],[1,3]]`: column 1 is
the constant 1 except for the entry 3; its MAD is 0 and the deviating entry
`(2,1)` is flagged. -/
theorem outliers_flag_deviation_from_zero_mad_witness :
    (2, 1) ∈ outliers [[1, 1], [1, 1], [1, 3]] false 3 := by
  apply outliers_flag_deviation_from_zero_mad [[1, 1], [1, 1], [1, 3]] false 3 2 1
    [1, 3] 3 rfl rfl zscoreDen_ex_1
  rw [colMedian_ex_1]
  norm_num

/-- C6 counterexample: `modified_zscore` is not explicitly guarded against a
zero MAD — on `[[1,1],[1,1],[1,3]]` it produces `nan` scores (0/0), and the
`nan` score at entry `(0,0)` is silently accepted as non-outlier by
`outliers()` (`nan > threshold` is false). -/
theorem modified_zscore_nan_accepted_counterexample :
    (∃ zrow, (modified_zscore [[1, 1], [1, 1], [1, 3]] false).get? 0 = some zrow
      ∧ zrow.get? 0 = some FpVal.nan)
    ∧ (0, 0) ∉ outliers [[1, 1], [1, 1], [1, 3]] false 3 := by
  have hm : modified_zscore [[1, 1], [1, 1], [1, 3]] false
      = [[FpVal.nan, FpVal.nan], [FpVal.nan, FpVal.nan], [FpVal.nan, FpVal.pinf]] := by
    rw [modified_zscore]
    simp only [List.map_cons, List.map_nil, List.enum]
    norm_num [List.enumFrom, zscoreDen_ex_0, zscoreDen_ex_1, colMedian_ex_0,
      colMedian_ex_1, fdiv]
  constructor
  · exact ⟨[FpVal.nan, FpVal.nan], by rw [hm]; rfl, rfl⟩
  · rw [outliers, hm]
    decide

end Gaitutils
